import Mathlib

/-!
Verification development for the netx repository: the address resolver
(`resolveListen`, `Listen`, `ListenPacket`) and the resilient server loop
(`Server.Serve`, `Server.serve`).  Go strings are modelled as `List Char`,
fallible calls as `Except`, and the operating system (interface table,
socket calls) as an explicit environment record.
-/

namespace Netx

/-- Decidable equality for `Except`, used to evaluate resolver results on
concrete inputs. -/
instance {ε α : Type} [DecidableEq ε] [DecidableEq α] : DecidableEq (Except ε α) := fun x y =>
  match x, y with
  | .error e, .error f =>
    if h : e = f then isTrue (by rw [h]) else isFalse (fun hc => by cases hc; exact h rfl)
  | .error e, .ok b => isFalse (fun hc => by cases hc)
  | .ok a, .error f => isFalse (fun hc => by cases hc)
  | .ok a, .ok b =>
    if h : a = b then isTrue (by rw [h]) else isFalse (fun hc => by cases hc; exact h rfl)

/-- Go strings are modelled as lists of characters. -/
abbrev Str := List Char

/-- Shorthand turning a Lean string literal into the character-list model. -/
def str (s : String) : Str := s.data

/-- Auxiliary for `strIndex`: index of the first occurrence of `pat` in `s`,
counting from `i`. -/
def strIndexAux (pat : Str) : Str → Nat → Option Nat
  | [], i => if pat.isPrefixOf ([] : Str) then some i else none
  | c :: rest, i =>
    if pat.isPrefixOf (c :: rest) then some i else strIndexAux pat rest (i + 1)

/-- Model of Go `strings.Index`: index of the first occurrence of `pat` in
`s`, `none` when absent (Go returns `-1`). -/
def strIndex (s pat : Str) : Option Nat := strIndexAux pat s 0

/-- Index of the last occurrence of character `b` in `s`, as used by
Go `net.SplitHostPort`. -/
def lastIndexChar (s : Str) (b : Char) : Option Nat :=
  match s.reverse.findIdx? (fun c => c == b) with
  | none => none
  | some j => some (s.length - 1 - j)

/-- Error cases of Go `net.SplitHostPort`. -/
inductive SplitErr where
  | missingPort
  | tooManyColons
  | missingRBracket
  | unexpectedLBracket
  | unexpectedRBracket
deriving DecidableEq

/-- Model of Go standard library `net.SplitHostPort`, which `resolveListen`
calls: splits `host:port` and `[host]:port` forms, rejecting malformed
input (translated from go/src/net/ipsock.go). -/
def splitHostPort (hostport : Str) : Except SplitErr (Str × Str) :=
  match lastIndexChar hostport ':' with
  | none => .error .missingPort
  | some i =>
    if hostport.head? = some '[' then
      match hostport.findIdx? (fun c => c == ']') with
      | none => .error .missingRBracket
      | some e =>
        if e + 1 = hostport.length then .error .missingPort
        else if e + 1 = i then
          if (hostport.drop 1).any (fun c => c == '[') then .error .unexpectedLBracket
          else if (hostport.drop (e + 1)).any (fun c => c == ']') then .error .unexpectedRBracket
          else .ok ((hostport.drop 1).take (e - 1), hostport.drop (i + 1))
        else if hostport.get? (e + 1) = some ':' then .error .tooManyColons
        else .error .missingPort
    else
      if (hostport.take i).any (fun c => c == ':') then .error .tooManyColons
      else if hostport.any (fun c => c == '[') then .error .unexpectedLBracket
      else if hostport.any (fun c => c == ']') then .error .unexpectedRBracket
      else .ok (hostport.take i, hostport.drop (i + 1))

/-- Model of Go `net.JoinHostPort`. -/
def joinHostPort (host port : Str) : Str :=
  if host.any (fun c => c == ':') then '[' :: (host ++ ']' :: ':' :: port)
  else host ++ ':' :: port

/-- Numeric value of a decimal digit string (auxiliary for `isIPv4`). -/
def decVal (s : Str) : Nat := s.foldl (fun n c => n * 10 + (c.toNat - 48)) 0

/-- One dotted-quad field: one to three decimal digits, value at most 255. -/
def isIPv4Field (f : Str) : Bool :=
  decide (f ≠ []) && decide (f.length ≤ 3) && f.all Char.isDigit && decide (decVal f ≤ 255)

/-- IPv4 dotted-quad literal. -/
def isIPv4 (s : Str) : Bool :=
  let fs := s.splitOn '.'
  decide (fs.length = 4) && fs.all isIPv4Field

/-- Hexadecimal digit (auxiliary for the IPv6 shape check). -/
def isHexDigitChar (c : Char) : Bool :=
  c.isDigit || (decide ('a' ≤ c) && decide (c ≤ 'f')) || (decide ('A' ≤ c) && decide (c ≤ 'F'))

/-- IPv6-shaped literal: non-empty, contains a colon, and is built from
hexadecimal digits, colons and dots. -/
def isIPv6 (s : Str) : Bool :=
  decide (s ≠ []) && s.any (fun c => c == ':') &&
    s.all (fun c => isHexDigitChar c || c == ':' || c == '.')

/-- Modelled from the spec: the repository's `IsIP` helper is called by
`resolveListen` but its defining file is missing from `src/`; per the spec
(§4.1 step 3a) it classifies the host component as an IP literal.  IPv4
dotted quads are checked exactly; IPv6 literals by a shape check, which is
all this development relies on. -/
def IsIP (s : Str) : Bool := isIPv4 s || isIPv6 s

/-- One network interface as seen by `resolveListen`: the outcome of its
`Addrs()` call (the rendered address strings, or an error). -/
structure NetIface where
  addrsResult : Except Str (List Str)
deriving DecidableEq

/-- The operating-system environment of the resolver: `net.InterfaceByName`,
with `.error` carrying the non-nil lookup error ("no such network
interface"). -/
structure NetEnv where
  interfaceByName : Str → Except Str NetIface

/-- Errors produced by the resolver and the socket layer. -/
inductive Err where
  | unsupportedProtocol (scheme : Str)
  | interfaceLookup (e : Str)
  | interfaceAddrs (e : Str)
  | sys (e : Str)
deriving DecidableEq

/-- The literal `"://"` separating an explicit scheme from the rest of the
address. -/
def schemeSep : Str := str "://"

/-- First protocol of `protocols` such that `address` begins with
`proto ++ "://"`, together with the remainder of the address — the loop at
part_000 lines 78-83. -/
def matchScheme (protocols : List Str) (address : Str) : Option (Str × Str) :=
  protocols.findSome? fun proto =>
    if (proto ++ schemeSep).isPrefixOf address then
      some (proto, address.drop (proto.length + 3))
    else none

/-- Scheme phase of `resolveListen` (part_000 lines 77-89): when the address
contains `"://"`, match the scheme against the allow-list; an unmatched (or
empty) scheme is an `unsupportedProtocol` error whose payload slices the
current address at the offset of the first `"://"`. -/
def schemePhase (protocols : List Str) (address : Str) : Except Err (Str × Str) :=
  match strIndex address schemeSep with
  | none => .ok ([], address)
  | some off =>
    match matchScheme protocols address with
    | some (network, rest) =>
      if network = [] then .error (.unsupportedProtocol (rest.take off))
      else .ok (network, rest)
    | none => .error (.unsupportedProtocol (address.take off))

/-- Host/port phase of `resolveListen` (part_000 lines 91-101): try
`net.SplitHostPort`; on failure, an address starting with `:` is a bare
port, anything else a bare host. -/
def hostPortPhase (address : Str) : Str × Str :=
  match splitHostPort address with
  | .ok hp => hp
  | .error _ =>
    match address with
    | ':' :: rest => ([], rest)
    | _ => (address, [])

/-- Translation of `resolveListen` (part_000 lines 72-143): scheme phase,
host/port phase, then classification of the host as an IP literal, a named
network interface (expanding to one target per interface address), or the
unix-socket fallback.  The fallback branch (lines 132-140) appends the
address and picks the unix default but never clears the non-nil `err` left
by `net.InterfaceByName` — unlike the `SplitHostPort` fallback at line 92 —
so the function returns that lookup error and both callers treat the
resolution as failed. -/
def resolveListen (env : NetEnv) (address : Str)
    (defaultProtoNetwork defaultProtoUnix : Str) (protocols : List Str) :
    Except Err (Str × List Str) :=
  match schemePhase protocols address with
  | .error e => .error e
  | .ok (network, addr) =>
    let hp := hostPortPhase addr
    if IsIP hp.1 then
      .ok (if network = [] then defaultProtoNetwork else network, [addr])
    else
      match env.interfaceByName hp.1 with
      | .ok ifi =>
        match ifi.addrsResult with
        | .error e => .error (.interfaceAddrs e)
        | .ok ifa =>
          .ok (if network = [] then defaultProtoNetwork else network,
               ifa.map fun a => if hp.2 = [] then a else joinHostPort a hp.2)
      | .error e => .error (.interfaceLookup e)

/-- Allow-list passed by `Listen` (part_000 lines 24-30). -/
def listenProtocols : List Str :=
  [str "tcp4", str "tcp6", str "tcp", str "unixpacket", str "unix"]

/-- Allow-list passed by `ListenPacket` (part_000 lines 50-58). -/
def listenPacketProtocols : List Str :=
  [str "udp4", str "udp6", str "udp", str "ip4", str "ip6", str "ip", str "unixdgram"]

/-- The `for` loop shared by `Listen` and `ListenPacket` (part_000 lines
35-39 and 63-67): Go keeps the `(lstn, err)` pair across iterations, so a
success stops the loop with a nil error and a failure overwrites the pair
with the latest error. -/
def listenLoop (openFn : Str → Except Err Nat) :
    List Str → Option Nat × Option Err → Option Nat × Option Err
  | [], st => st
  | a :: rest, _ =>
    match openFn a with
    | .ok l => (some l, none)
    | .error e => listenLoop openFn rest (none, some e)

/-- Translation of `Listen` (part_000 lines 20-42); `netListen` models
`net.Listen network address`, returning a listener handle. -/
def Listen (env : NetEnv) (netListen : Str → Str → Except Err Nat)
    (address : Str) : Option Nat × Option Err :=
  match resolveListen env address (str "tcp") (str "unix") listenProtocols with
  | .error e => (none, some e)
  | .ok (network, addrs) => listenLoop (netListen network) addrs (none, none)

/-- Translation of `ListenPacket` (part_000 lines 46-70); `netListenPacket`
models `net.ListenPacket network address`. -/
def ListenPacket (env : NetEnv) (netListenPacket : Str → Str → Except Err Nat)
    (address : Str) : Option Nat × Option Err :=
  match resolveListen env address (str "udp") (str "unixdgram") listenPacketProtocols with
  | .error e => (none, some e)
  | .ok (network, addrs) => listenLoop (netListenPacket network) addrs (none, none)

/-- An environment with no network interfaces at all: every lookup fails
with the operating system's "no such network interface" error. -/
def emptyEnv : NetEnv := ⟨fun _ => .error (str "no such network interface")⟩






/-! ## Server model (server.go)

`Server.Serve` (lines 74-97) registers three deferred actions — `lstn.Close()`
(line 75), `join.Wait()` (line 78), `cancel()` (line 81) — and loops accepting
connections, incrementing the `WaitGroup` and spawning `s.serve` for each.
Deferred actions run in reverse registration order when a fatal accept error
makes the loop return.  The model is a labelled transition system whose
configurations track the phase of the driving task, the in-flight counter
(the `WaitGroup`), the shutdown context and the listener. -/

/-- Phase of the task driving `Server.Serve`: accepting, or running the
deferred epilogue for fatal error `e` (`cancel()`, then `join.Wait()`, then
`lstn.Close()`), or returned. -/
inductive Phase where
  | accepting
  | deferCancel (e : Err)
  | deferWait (e : Err)
  | deferClose (e : Err)
  | returned (e : Err)
deriving DecidableEq

/-- A configuration of the running server: driving-task phase, `WaitGroup`
counter, whether the shutdown context has been cancelled, whether the
listener has been closed. -/
structure SConfig where
  phase : Phase
  inFlight : Nat
  cancelled : Bool
  listenerClosed : Bool
deriving DecidableEq

/-- Events of `Server.Serve` and of the dispatched `s.serve` goroutines. -/
inductive SLabel where
  | acceptConn
  | acceptFatal (e : Err)
  | handlerDone
  | runCancel
  | runWaitDone
  | runClose
deriving DecidableEq

/-- One step of the server transition system, `none` when the event cannot
occur in the configuration.  `acceptConn` is `join.Add(1); go s.serve(...)`
(lines 94-95); `acceptFatal` is `Accept` returning a fatal error (line 90);
`handlerDone` is a dispatched goroutine's `join.Done()` (line 105);
`runCancel`, `runWaitDone`, `runClose` are the deferred `cancel()`,
`join.Wait()` (enabled only at counter zero) and `lstn.Close()`. -/
def serveStepB (cfg : SConfig) : SLabel → Option SConfig
  | .acceptConn =>
    match cfg.phase with
    | .accepting => some { cfg with inFlight := cfg.inFlight + 1 }
    | _ => none
  | .acceptFatal e =>
    match cfg.phase with
    | .accepting => some { cfg with phase := .deferCancel e }
    | _ => none
  | .handlerDone =>
    if cfg.inFlight = 0 then none
    else
      match cfg.phase with
      | .accepting => some { cfg with inFlight := cfg.inFlight - 1 }
      | .deferCancel _ => some { cfg with inFlight := cfg.inFlight - 1 }
      | .deferWait _ => some { cfg with inFlight := cfg.inFlight - 1 }
      | _ => none
  | .runCancel =>
    match cfg.phase with
    | .deferCancel e => some { cfg with phase := .deferWait e, cancelled := true }
    | _ => none
  | .runWaitDone =>
    match cfg.phase with
    | .deferWait e => if cfg.inFlight = 0 then some { cfg with phase := .deferClose e } else none
    | _ => none
  | .runClose =>
    match cfg.phase with
    | .deferClose e => some { cfg with phase := .returned e, listenerClosed := true }
    | _ => none

/-- Run a sequence of events from a configuration. -/
def serveRun : SConfig → List SLabel → Option SConfig
  | cfg, [] => some cfg
  | cfg, l :: ls =>
    match serveStepB cfg l with
    | none => none
    | some cfg' => serveRun cfg' ls

/-- The configuration in which `Server.Serve` starts. -/
def serveInit : SConfig :=
  { phase := .accepting, inFlight := 0, cancelled := false, listenerClosed := false }

/-! ### The dispatched goroutine `Server.serve` (server.go lines 99-108)

`s.serve` registers, in order: the recover handler (lines 100-104, with the
remote address captured at registration time), `join.Done()` (line 105) and
`conn.Close()` (line 106), then invokes `s.Handler.ServeConn`.  On a panic
the deferred calls run in reverse order while the goroutine is unwinding,
and the recover handler logs the panic value, the remote address and a stack
trace (`s.recover`, lines 110-116). -/

/-- Outcome of the handler invocation `s.Handler.ServeConn(conn, context)`. -/
inductive HandlerOutcome where
  | ok
  | panics (v : Str)
deriving DecidableEq

/-- What `s.recover` logs: panic value, remote peer address, and whether a
stack trace was captured (`runtime.Stack`). -/
structure PanicLog where
  value : Str
  remoteAddr : Str
  withStack : Bool
deriving DecidableEq

/-- The deferred actions of `s.serve`, in registration order. -/
inductive DeferAct where
  | recoverLog (addr : Str)
  | joinDone
  | closeConn
deriving DecidableEq

/-- State threaded through the deferred calls of one `s.serve` goroutine. -/
structure GoState where
  connClosed : Bool
  joinDone : Bool
  panicking : Option Str
  panicLogged : Option PanicLog
deriving DecidableEq

/-- Effect of one deferred call: `conn.Close()`, `join.Done()`, or the
recover handler, which absorbs a pending panic and logs it with the remote
address and a stack trace. -/
def runDefer (st : GoState) : DeferAct → GoState
  | .closeConn => { st with connClosed := true }
  | .joinDone => { st with joinDone := true }
  | .recoverLog addr =>
    match st.panicking with
    | some v => { st with panicking := none,
                          panicLogged := some ⟨v, addr, true⟩ }
    | none => st

/-- The deferred actions registered by `s.serve`, in registration order
(server.go lines 100-106). -/
def serveDefers (remoteAddr : Str) : List DeferAct :=
  [.recoverLog remoteAddr, .joinDone, .closeConn]

/-- Result of one `s.serve` goroutine: whether the connection was closed and
the counter decremented, what was logged, and any panic escaping the
goroutine. -/
structure GoroutineResult where
  connClosed : Bool
  joinDone : Bool
  panicLogged : Option PanicLog
  escaped : Option Str
deriving DecidableEq

/-- Translation of `Server.serve` (server.go lines 99-108): run the handler,
then the deferred calls in reverse registration order, under Go's rule that
a panic keeps unwinding until a deferred `recover()` absorbs it. -/
def serverServe (remoteAddr : Str) (outcome : HandlerOutcome) : GoroutineResult :=
  let st0 : GoState :=
    { connClosed := false, joinDone := false,
      panicking := match outcome with | .ok => none | .panics v => some v,
      panicLogged := none }
  let st := (serveDefers remoteAddr).reverse.foldl runDefer st0
  ⟨st.connClosed, st.joinDone, st.panicLogged, st.panicking⟩

/-! ### The accept loop (spec-modelled)

`Server.Serve` calls `Accept(lstn, errf)` (server.go line 90), but the file
defining `Accept` is not under `src/`.  Modelled from the spec (§4.3): on a
transient error report `(error, currentBackoff)` to the diagnostic sink,
sleep for `currentBackoff`, then double it bounded by a fixed ceiling; reset
to the floor after a successful accept; return a fatal error immediately. -/

/-- Modelled from the spec: the backoff floor, 5 milliseconds (§4.3). -/
def acceptBackoffFloor : Nat := 5

/-- Modelled from the spec: the backoff ceiling, 1 second (§4.3). -/
def acceptBackoffCeiling : Nat := 1000

/-- One outcome of the listener's raw accept primitive. -/
inductive AcceptAttempt where
  | transient (e : Str)
  | success (c : Nat)
  | fatal (e : Str)
deriving DecidableEq

/-- Observable events of the accept loop: a diagnostic report
`onTransientError(e, backoff)`, a sleep, or a delivered connection. -/
inductive AcceptEv where
  | reported (e : Str) (backoff : Nat)
  | slept (d : Nat)
  | accepted (c : Nat)
deriving DecidableEq

/-- Modelled from the spec (§4.3): the accept loop over a sequence of raw
accept outcomes, starting from current backoff `cur`, producing the event
trace and the fatal error that terminated it (if any). -/
def acceptLoopRun (floor ceiling : Nat) : Nat → List AcceptAttempt → List AcceptEv × Option Str
  | _, [] => ([], none)
  | cur, .transient e :: rest =>
    let next := min (cur * 2) ceiling
    let t := acceptLoopRun floor ceiling next rest
    (.reported e cur :: .slept cur :: t.1, t.2)
  | _, .success c :: rest =>
    let t := acceptLoopRun floor ceiling floor rest
    (.accepted c :: t.1, t.2)
  | _, .fatal e :: _ => ([], some e)

/-- The backoff reported on the `i`-th consecutive transient failure:
the floor, then doubled and capped at the ceiling. -/
def backoffSeq (floor ceiling : Nat) : Nat → Nat
  | 0 => floor
  | n + 1 => min (backoffSeq floor ceiling n * 2) ceiling

/-- The events the spec predicts for a run of consecutive transient
failures beginning at backoff index `i`: each failure is reported with the
current backoff and followed by a sleep of exactly that backoff. -/
def expectedFailEvs (floor ceiling : Nat) : List Str → Nat → List AcceptEv
  | [], _ => []
  | e :: es, i =>
    .reported e (backoffSeq floor ceiling i) :: .slept (backoffSeq floor ceiling i) ::
      expectedFailEvs floor ceiling es (i + 1)

/-! ### Go method sets (server.go lines 38-49)

The `Handler` interface demands `ServeConn(net.Conn, context.Context)`;
`HandlerFunc` is `func(net.Conn)` and its `ServeConn` method takes only the
connection, so its method set does not include the interface's method. -/

/-- The Go types appearing in the relevant method signatures. -/
inductive GoType where
  | netConn
  | contextContext
deriving DecidableEq

/-- A Go method signature: name and parameter types. -/
structure GoMethodSig where
  name : Str
  params : List GoType
deriving DecidableEq

/-- Method required by the `Handler` interface (server.go lines 38-40). -/
def handlerInterfaceMethods : List GoMethodSig :=
  [⟨str "ServeConn", [.netConn, .contextContext]⟩]

/-- Method set of `HandlerFunc` (server.go lines 44-49): `ServeConn` takes
only the connection. -/
def handlerFuncMethods : List GoMethodSig :=
  [⟨str "ServeConn", [.netConn]⟩]

/-- Go's structural rule: a type satisfies an interface when its method set
contains every method the interface demands. -/
def implementsInterface (methodSet iface : List GoMethodSig) : Bool :=
  iface.all fun m => methodSet.contains m

/-- A network connection as the handler sees it. -/
structure NetConn where
  id : Nat
  remoteAddr : Str
deriving DecidableEq

/-- The `HandlerFunc` type (server.go line 44): a bare function of the
connection, its observable effect modelled as a `HandlerOutcome`. -/
def HandlerFunc := NetConn → HandlerOutcome

/-- `HandlerFunc.ServeConn` (server.go lines 47-49): calls `f`. -/
def HandlerFunc.ServeConn (f : HandlerFunc) (conn : NetConn) : HandlerOutcome := f conn

/-! ## Theorems -/

/-- An environment holding one interface, `dummy0`, with no configured
addresses. -/
def envDummy : NetEnv :=
  ⟨fun h => if h = str "dummy0" then .ok ⟨.ok []⟩
    else .error (str "no such network interface")⟩

/-- An environment holding one interface, `eth0`, with two configured
addresses, in enumeration order. -/
def envEth : NetEnv :=
  ⟨fun h => if h = str "eth0" then .ok ⟨.ok [str "10.0.0.1", str "10.0.0.2"]⟩
    else .error (str "no such network interface")⟩

/-- Written from the spec's words (§4.2): given the resolved targets, try
each in order and return the first successfully opened listener; if every
attempt fails, return the last encountered error, earlier errors being
discarded. -/
def specTryInOrder (openFn : Str → Except Err Nat) : List Str → Option Nat × Option Err
  | [] => (none, none)
  | [a] =>
    match openFn a with
    | .ok l => (some l, none)
    | .error e => (none, some e)
  | a :: b :: rest =>
    match openFn a with
    | .ok l => (some l, none)
    | .error _ => specTryInOrder openFn (b :: rest)

/-- A socket layer for the witness: binding to `10.0.0.1:8080` fails,
binding to `10.0.0.2:8080` yields listener 7. -/
def witnessNetListen (network address : Str) : Except Err Nat :=
  if network = str "tcp" ∧ address = str "10.0.0.2:8080" then .ok 7
  else .error (.sys (str "bind failed"))

/-- Safety invariant of the server transition system: once the epilogue has
passed `cancel()` the context is cancelled, once it has passed
`join.Wait()` the in-flight counter is zero, and at return the listener
has also been closed. -/
def SInv (cfg : SConfig) : Prop :=
  match cfg.phase with
  | .accepting => True
  | .deferCancel _ => True
  | .deferWait _ => cfg.cancelled = true
  | .deferClose _ => cfg.inFlight = 0 ∧ cfg.cancelled = true
  | .returned _ => cfg.inFlight = 0 ∧ cfg.cancelled = true ∧ cfg.listenerClosed = true

/-- The fatal error recorded in a configuration's phase, if any. -/
def phaseErr : Phase → Option Err
  | .accepting => none
  | .deferCancel e => some e
  | .deferWait e => some e
  | .deferClose e => some e
  | .returned e => some e

/-- A complete concrete execution: one connection is accepted, the accept
loop fails fatally, the context is cancelled, the handler finishes, the
wait returns, the listener is closed. -/
def claim2Trace : List SLabel :=
  [.acceptConn, .acceptFatal (.sys (str "use of closed network connection")),
   .runCancel, .handlerDone, .runWaitDone, .runClose]

/-- The configuration reached by `claim2Trace`. -/
def claim2Final : SConfig :=
  { phase := .returned (.sys (str "use of closed network connection")),
    inFlight := 0, cancelled := true, listenerClosed := true }

/-- Claim C1 counterexample: resolving `":9000"` with stream default `"tcp"`
and unix default `"unix"` (the pair `Listen` passes) does not succeed at
all, let alone with the stream default: `net.SplitHostPort(":9000")`
succeeds with an empty host, the empty host is neither an IP literal nor an
interface, and the unix fallback keeps the non-nil `net.InterfaceByName`
error, so resolution fails with that lookup error. -/
theorem claim1_counterexample :
    resolveListen emptyEnv (str ":9000") (str "tcp") (str "unix") listenProtocols
        = .error (.interfaceLookup (str "no such network interface")) ∧
    ∀ addrs, resolveListen emptyEnv (str ":9000") (str "tcp") (str "unix") listenProtocols
        ≠ .ok (str "tcp", addrs) := by
  have he : resolveListen emptyEnv (str ":9000") (str "tcp") (str "unix") listenProtocols
      = .error (.interfaceLookup (str "no such network interface")) := by decide
  exact ⟨he, fun addrs h => by rw [he] at h; exact absurd h (by simp)⟩

/-- Claim C1 (amended): for the input address `":9000"` (no scheme),
resolution does not succeed: `net.SplitHostPort` splits it into an empty
host and port 9000, the empty host is neither an IP literal nor a known
interface, and the unix fallback branch never clears the non-nil error from
`net.InterfaceByName`, so resolution fails with that lookup error and no
protocol or targets are delivered to the caller. -/
theorem claim1_bare_port_fails_lookup (env : NetEnv) (dN dU : Str) (ps : List Str)
    (e : Str) (h : env.interfaceByName [] = .error e) :
    resolveListen env (str ":9000") dN dU ps = .error (.interfaceLookup e) := by
  have h1 : schemePhase ps (str ":9000") = .ok ([], str ":9000") := by
    unfold schemePhase
    rw [show strIndex (str ":9000") schemeSep = none from by decide]
  unfold resolveListen
  rw [h1]
  simp only [show hostPortPhase (str ":9000") = ([], str "9000") from by decide,
    show IsIP ([] : Str) = false from by decide, Bool.false_eq_true, if_false, h]

/-- Witness for `claim1_bare_port_fails_lookup` at a concrete environment. -/
theorem claim1_bare_port_fails_lookup_witness :
    resolveListen emptyEnv (str ":9000") (str "udp") (str "unixdgram") listenPacketProtocols
      = .error (.interfaceLookup (str "no such network interface")) :=
  claim1_bare_port_fails_lookup emptyEnv (str "udp") (str "unixdgram")
    listenPacketProtocols (str "no such network interface") rfl

/-- Claim C8 counterexample: resolving `"dummy0"` in an environment where
interface `dummy0` has no configured addresses succeeds with an empty
target list, refuting "resolution success implies a non-empty target
list". -/
theorem claim8_counterexample :
    resolveListen envDummy (str "dummy0") (str "tcp") (str "unix") listenProtocols
      = .ok (str "tcp", []) ∧
    ¬ (∀ nw addrs, resolveListen envDummy (str "dummy0") (str "tcp") (str "unix") listenProtocols
        = .ok (nw, addrs) → addrs ≠ []) := by
  refine ⟨by decide, fun hall => hall (str "tcp") [] (by decide) rfl⟩

/-- Claim C8 (amended): for every input address on which resolution
succeeds, the returned target list is non-empty, except when the host
component names a network interface whose address enumeration is empty — in
that one case resolution succeeds with an empty target list. -/
theorem claim8_targets_nonempty_unless_bare_iface (env : NetEnv) (address dN dU : Str)
    (ps : List Str) (nw : Str) (addrs : List Str)
    (h : resolveListen env address dN dU ps = .ok (nw, addrs)) (he : addrs = []) :
    ∃ nw0 a ifi, schemePhase ps address = .ok (nw0, a) ∧
      IsIP (hostPortPhase a).1 = false ∧
      env.interfaceByName (hostPortPhase a).1 = .ok ifi ∧
      ifi.addrsResult = .ok [] := by
  unfold resolveListen at h
  cases hs : schemePhase ps address with
  | error e => rw [hs] at h; exact absurd h (by simp)
  | ok p =>
    obtain ⟨nw0, a⟩ := p
    rw [hs] at h
    by_cases hip : IsIP (hostPortPhase a).1
    · simp only [hip, if_true] at h
      cases h
      simp at he
    · cases hifi : env.interfaceByName (hostPortPhase a).1 with
      | error e =>
        simp only [hip, Bool.false_eq_true, if_false, hifi] at h
        exact absurd h (by simp)
      | ok ifi =>
        cases ha : ifi.addrsResult with
        | error e =>
          simp only [hip, Bool.false_eq_true, if_false, hifi, ha] at h
          exact absurd h (by simp)
        | ok l =>
          simp only [hip, Bool.false_eq_true, if_false, hifi, ha] at h
          cases h
          have hl : l = [] := List.map_eq_nil_iff.mp he
          exact ⟨nw0, a, ifi, rfl, by simpa using hip, hifi, by rw [ha, hl]⟩

/-- Witness for `claim8_targets_nonempty_unless_bare_iface` at the concrete
empty-interface environment. -/
theorem claim8_targets_nonempty_unless_bare_iface_witness :
    ∃ nw0 a ifi,
      schemePhase listenProtocols (str "dummy0") = .ok (nw0, a) ∧
      IsIP (hostPortPhase a).1 = false ∧
      envDummy.interfaceByName (hostPortPhase a).1 = .ok ifi ∧
      ifi.addrsResult = .ok [] :=
  claim8_targets_nonempty_unless_bare_iface envDummy (str "dummy0") (str "tcp")
    (str "unix") listenProtocols (str "tcp") [] (by decide) rfl

/-- A successful scheme match comes from the allow-list: the matched
protocol is a member, the address begins with it followed by `"://"`, and
the remainder drops that prefix. -/
theorem matchScheme_eq_some (ps : List Str) (address p r : Str)
    (h : matchScheme ps address = some (p, r)) :
    p ∈ ps ∧ (p ++ schemeSep).isPrefixOf address = true ∧
      r = address.drop (p.length + 3) := by
  induction ps with
  | nil => simp [matchScheme] at h
  | cons q qs ih =>
    unfold matchScheme at h
    rw [List.findSome?_cons] at h
    by_cases hq : (q ++ schemeSep).isPrefixOf address
    · simp only [hq, if_true] at h
      obtain ⟨h1, h2⟩ := Prod.mk.injEq .. ▸ Option.some.injEq .. ▸ h
      subst h1
      exact ⟨List.mem_cons_self q qs, hq, h2.symm ▸ rfl⟩
    · simp only [hq, if_false] at h
      have := ih (by unfold matchScheme; exact h)
      exact ⟨List.mem_cons_of_mem q this.1, this.2⟩

/-- A successful scheme phase yields either the empty protocol (no scheme
present) or a non-empty protocol from the allow-list. -/
theorem schemePhase_ok_cases (ps : List Str) (address nw0 a : Str)
    (h : schemePhase ps address = .ok (nw0, a)) :
    nw0 = [] ∨ (nw0 ∈ ps ∧ nw0 ≠ []) := by
  unfold schemePhase at h
  cases hoff : strIndex address schemeSep with
  | none =>
    rw [hoff] at h
    cases h
    exact Or.inl rfl
  | some off =>
    rw [hoff] at h
    cases hm : matchScheme ps address with
    | none => rw [hm] at h; exact absurd h (by simp)
    | some pr =>
      obtain ⟨p, r⟩ := pr
      rw [hm] at h
      by_cases hp : p = ([] : Str)
      · simp only [hp, if_true] at h
        exact absurd h (by simp)
      · simp only [hp, if_false] at h
        cases h
        exact Or.inr ⟨(matchScheme_eq_some ps address nw0 a hm).1, hp⟩

/-- Claim C10: for every input address on which `resolveListen` succeeds,
the returned protocol string is non-empty (given non-empty caller-supplied
defaults, as `Listen` and `ListenPacket` supply) and is either a member of
the caller-supplied allow-list (the matched explicit scheme) or one of the
two caller-supplied defaults; no other value is ever returned. -/
theorem claim10_protocol_invariant (env : NetEnv) (address dN dU : Str)
    (ps : List Str) (nw : Str) (addrs : List Str)
    (hdN : dN ≠ []) (hdU : dU ≠ [])
    (h : resolveListen env address dN dU ps = .ok (nw, addrs)) :
    nw ≠ [] ∧ (nw ∈ ps ∨ nw = dN ∨ nw = dU) := by
  unfold resolveListen at h
  cases hs : schemePhase ps address with
  | error e => rw [hs] at h; exact absurd h (by simp)
  | ok p =>
    obtain ⟨nw0, a⟩ := p
    rw [hs] at h
    have hcases := schemePhase_ok_cases ps address nw0 a hs
    by_cases hip : IsIP (hostPortPhase a).1
    · simp only [hip, if_true] at h
      cases h
      rcases hcases with h0 | ⟨hmem, hne⟩
      · subst h0
        rw [if_pos rfl]
        exact ⟨hdN, Or.inr (Or.inl rfl)⟩
      · rw [if_neg hne]
        exact ⟨hne, Or.inl hmem⟩
    · cases hifi : env.interfaceByName (hostPortPhase a).1 with
      | ok ifi =>
        cases ha : ifi.addrsResult with
        | error e =>
          simp only [hip, Bool.false_eq_true, if_false, hifi, ha] at h
          exact absurd h (by simp)
        | ok l =>
          simp only [hip, Bool.false_eq_true, if_false, hifi, ha] at h
          cases h
          rcases hcases with h0 | ⟨hmem, hne⟩
          · subst h0
            rw [if_pos rfl]
            exact ⟨hdN, Or.inr (Or.inl rfl)⟩
          · rw [if_neg hne]
            exact ⟨hne, Or.inl hmem⟩
      | error e =>
        simp only [hip, Bool.false_eq_true, if_false, hifi] at h
        exact absurd h (by simp)

/-- Witness for `claim10_protocol_invariant`: an explicit-scheme address. -/
theorem claim10_protocol_invariant_witness :
    str "tcp6" ≠ ([] : Str) ∧
      (str "tcp6" ∈ listenProtocols ∨ str "tcp6" = str "tcp" ∨ str "tcp6" = str "unix") :=
  claim10_protocol_invariant emptyEnv (str "tcp6://[::1]:0") (str "tcp") (str "unix")
    listenProtocols (str "tcp6") [str "[::1]:0"] (by decide) (by decide) (by decide)

/-- Claim C6: when the host component names a network interface whose
address enumeration succeeds with list `l`, resolution succeeds and yields
exactly one target per interface address, in enumeration order, each formed
by joining the interface address with the requested port when a port was
given, and the protocol defaults to the stream default when no explicit
scheme fixed it. -/
theorem claim6_interface_expansion (env : NetEnv) (address dN dU : Str) (ps : List Str)
    (nw0 a host port : Str) (ifi : NetIface) (l : List Str)
    (hs : schemePhase ps address = .ok (nw0, a))
    (hhp : hostPortPhase a = (host, port))
    (hip : IsIP host = false)
    (hifi : env.interfaceByName host = .ok ifi)
    (haddrs : ifi.addrsResult = .ok l) :
    resolveListen env address dN dU ps
      = .ok (if nw0 = [] then dN else nw0,
             l.map fun x => if port = [] then x else joinHostPort x port) ∧
    (l.map fun x => if port = [] then x else joinHostPort x port).length = l.length := by
  refine ⟨?_, List.length_map l _⟩
  unfold resolveListen
  rw [hs]
  simp only [hhp, hip, Bool.false_eq_true, if_false, hifi, haddrs]

/-- Witness for `claim6_interface_expansion`: interface `eth0` with two
addresses and requested port 8080. -/
theorem claim6_interface_expansion_witness :
    resolveListen envEth (str "eth0:8080") (str "tcp") (str "unix") listenProtocols
      = .ok (str "tcp", [str "10.0.0.1:8080", str "10.0.0.2:8080"]) := by
  have h := (claim6_interface_expansion envEth (str "eth0:8080") (str "tcp") (str "unix")
    listenProtocols [] (str "eth0:8080") (str "eth0") (str "8080")
    ⟨.ok [str "10.0.0.1", str "10.0.0.2"]⟩ [str "10.0.0.1", str "10.0.0.2"]
    (by decide) (by decide) (by decide) (by decide) (by decide)).1
  rw [h]
  decide


/-- The Go loop kept in `Listen`/`ListenPacket` agrees with the
spec-written first-success-or-last-error function, starting from the
all-nil variable state. -/
theorem listenLoop_eq_spec (openFn : Str → Except Err Nat) :
    ∀ (rest : List Str) (a : Str) (st : Option Nat × Option Err),
      listenLoop openFn (a :: rest) st = specTryInOrder openFn (a :: rest) := by
  intro rest
  induction rest with
  | nil =>
    intro a st
    unfold listenLoop specTryInOrder
    cases openFn a <;> simp [listenLoop]
  | cons b rs ih =>
    intro a st
    unfold listenLoop specTryInOrder
    cases openFn a <;> simp
    exact ih b (none, some _)

/-- `specTryInOrder` returns the first success: failures before index `i`
are skipped and the listener opened at `i` is returned with a nil error. -/
theorem specTryInOrder_first_success (openFn : Str → Except Err Nat) :
    ∀ (pre : List Str) (a : Str) (post : List Str) (l : Nat),
      (∀ b ∈ pre, ∃ e, openFn b = .error e) → openFn a = .ok l →
      specTryInOrder openFn (pre ++ a :: post) = (some l, none) := by
  intro pre
  induction pre with
  | nil =>
    intro a post l _ ha
    cases post <;> simp [specTryInOrder, ha]
  | cons p ps ih =>
    intro a post l hpre ha
    obtain ⟨e, he⟩ := hpre p (List.mem_cons_self p ps)
    have tail := ih a post l (fun b hb => hpre b (List.mem_cons_of_mem p hb)) ha
    cases hps : ps ++ a :: post with
    | nil => exact absurd hps (by simp)
    | cons q qs =>
      show specTryInOrder openFn (p :: (ps ++ a :: post)) = (some l, none)
      rw [hps]
      show (match openFn p with
        | .ok l => (some l, none)
        | .error _ => specTryInOrder openFn (q :: qs)) = (some l, none)
      rw [he, ← hps, tail]

/-- `specTryInOrder` returns the last error when every attempt fails. -/
theorem specTryInOrder_all_fail (openFn : Str → Except Err Nat) :
    ∀ (init : List Str) (a : Str) (e : Err),
      (∀ b ∈ init, ∃ eb, openFn b = .error eb) → openFn a = .error e →
      specTryInOrder openFn (init ++ [a]) = (none, some e) := by
  intro init
  induction init with
  | nil =>
    intro a e _ ha
    simp [specTryInOrder, ha]
  | cons p ps ih =>
    intro a e hinit ha
    obtain ⟨eb, heb⟩ := hinit p (List.mem_cons_self p ps)
    have tail := ih a e (fun b hb => hinit b (List.mem_cons_of_mem p hb)) ha
    cases hps : ps ++ [a] with
    | nil => exact absurd hps (by simp)
    | cons q qs =>
      show specTryInOrder openFn (p :: (ps ++ [a])) = (none, some e)
      rw [hps]
      show (match openFn p with
        | .ok l => (some l, none)
        | .error _ => specTryInOrder openFn (q :: qs)) = (none, some e)
      rw [heb, ← hps, tail]

/-- Claim C7: `Listen` and `ListenPacket` try the resolved targets strictly
in order: each equals the spec-written first-success-or-last-error
traversal of its resolved target list, so the first successfully opened
listener is returned, and when every target fails the last encountered
error is returned with all earlier errors discarded. -/
theorem claim7_first_success_or_last_error (env : NetEnv)
    (f g : Str → Str → Except Err Nat) (address : Str)
    (nw1 nw2 : Str) (as1 as2 : List Str)
    (h1 : resolveListen env address (str "tcp") (str "unix") listenProtocols
        = .ok (nw1, as1))
    (h2 : resolveListen env address (str "udp") (str "unixdgram") listenPacketProtocols
        = .ok (nw2, as2)) :
    Listen env f address = specTryInOrder (f nw1) as1 ∧
    ListenPacket env g address = specTryInOrder (g nw2) as2 ∧
    (∀ pre a post l, as1 = pre ++ a :: post →
      (∀ b ∈ pre, ∃ e, f nw1 b = .error e) → f nw1 a = .ok l →
      Listen env f address = (some l, none)) ∧
    (∀ init a e, as1 = init ++ [a] →
      (∀ b ∈ init, ∃ eb, f nw1 b = .error eb) → f nw1 a = .error e →
      Listen env f address = (none, some e)) ∧
    (∀ pre a post l, as2 = pre ++ a :: post →
      (∀ b ∈ pre, ∃ e, g nw2 b = .error e) → g nw2 a = .ok l →
      ListenPacket env g address = (some l, none)) ∧
    (∀ init a e, as2 = init ++ [a] →
      (∀ b ∈ init, ∃ eb, g nw2 b = .error eb) → g nw2 a = .error e →
      ListenPacket env g address = (none, some e)) := by
  have e1 : Listen env f address = specTryInOrder (f nw1) as1 := by
    unfold Listen
    rw [h1]
    cases as1 with
    | nil => rfl
    | cons a rest => exact listenLoop_eq_spec (f nw1) rest a (none, none)
  have e2 : ListenPacket env g address = specTryInOrder (g nw2) as2 := by
    unfold ListenPacket
    rw [h2]
    cases as2 with
    | nil => rfl
    | cons a rest => exact listenLoop_eq_spec (g nw2) rest a (none, none)
  refine ⟨e1, e2, ?_, ?_, ?_, ?_⟩
  · intro pre a post l hsplit hpre ha
    rw [e1, hsplit]
    exact specTryInOrder_first_success (f nw1) pre a post l hpre ha
  · intro init a e hsplit hinit ha
    rw [e1, hsplit]
    exact specTryInOrder_all_fail (f nw1) init a e hinit ha
  · intro pre a post l hsplit hpre ha
    rw [e2, hsplit]
    exact specTryInOrder_first_success (g nw2) pre a post l hpre ha
  · intro init a e hsplit hinit ha
    rw [e2, hsplit]
    exact specTryInOrder_all_fail (g nw2) init a e hinit ha


/-- Witness for `claim7_first_success_or_last_error`: on the two-interface
environment, `Listen` skips the failing first target and returns the
listener opened on the second, while `ListenPacket` (whose packet socket
layer always fails) returns the last bind error. -/
theorem claim7_first_success_or_last_error_witness :
    Listen envEth witnessNetListen (str "eth0:8080") = (some 7, none) ∧
    ListenPacket envEth (fun _ _ => .error (.sys (str "no route"))) (str "eth0:8080")
      = (none, some (.sys (str "no route"))) := by
  have h := claim7_first_success_or_last_error envEth witnessNetListen
    (fun _ _ => .error (.sys (str "no route"))) (str "eth0:8080")
    (str "tcp") (str "udp") [str "10.0.0.1:8080", str "10.0.0.2:8080"]
    [str "10.0.0.1:8080", str "10.0.0.2:8080"] (by decide) (by decide)
  refine ⟨?_, ?_⟩
  · exact h.2.2.1 [str "10.0.0.1:8080"] (str "10.0.0.2:8080") [] 7 rfl
      (by intro b hb; exact ⟨.sys (str "bind failed"), by cases hb with
        | head => decide
        | tail _ hb2 => cases hb2⟩) (by decide)
  · exact h.2.2.2.2.2 [str "10.0.0.1:8080"] (str "10.0.0.2:8080") (.sys (str "no route")) rfl
      (by intro b hb; exact ⟨.sys (str "no route"), rfl⟩) rfl

/-- Claim C9: the exported `HandlerFunc` type's `ServeConn` method takes
only the connection — `HandlerFunc.ServeConn f c` is exactly `f c` — and
because that method's signature lacks the context parameter, `HandlerFunc`'s
method set does not satisfy the `Handler` interface that `Server`, `Serve`
and `ListenAndServe` require. -/
theorem claim9_handlerfunc_mismatch :
    (∀ (f : HandlerFunc) (c : NetConn), HandlerFunc.ServeConn f c = f c) ∧
    implementsInterface handlerFuncMethods handlerInterfaceMethods = false ∧
    handlerFuncMethods ≠ handlerInterfaceMethods := by
  exact ⟨fun f c => rfl, by decide, by decide⟩


/-- Every step of the server transition system preserves `SInv`. -/
theorem sinv_step (cfg cfg' : SConfig) (l : SLabel)
    (hinv : SInv cfg) (h : serveStepB cfg l = some cfg') : SInv cfg' := by
  cases l with
  | acceptConn =>
    simp only [serveStepB] at h
    split at h
    next hp => cases h; simp_all [SInv]
    next => exact absurd h (by simp)
  | acceptFatal e =>
    simp only [serveStepB] at h
    split at h
    next hp => cases h; simp_all [SInv]
    next => exact absurd h (by simp)
  | handlerDone =>
    simp only [serveStepB] at h
    by_cases hz : cfg.inFlight = 0
    · rw [if_pos hz] at h; exact absurd h (by simp)
    · rw [if_neg hz] at h
      split at h
      next hp => cases h; simp_all [SInv]
      next hp => cases h; simp_all [SInv]
      next hp => cases h; simp_all [SInv]
      next => exact absurd h (by simp)
  | runCancel =>
    simp only [serveStepB] at h
    split at h
    next hp => cases h; simp_all [SInv]
    next => exact absurd h (by simp)
  | runWaitDone =>
    simp only [serveStepB] at h
    split at h
    next hp =>
      by_cases hz : cfg.inFlight = 0
      · rw [if_pos hz] at h; cases h; simp_all [SInv]
      · rw [if_neg hz] at h; exact absurd h (by simp)
    next => exact absurd h (by simp)
  | runClose =>
    simp only [serveStepB] at h
    split at h
    next hp => cases h; simp_all [SInv]
    next => exact absurd h (by simp)

/-- Runs preserve `SInv`. -/
theorem serveRun_inv : ∀ (tr : List SLabel) (cfg cfg' : SConfig),
    SInv cfg → serveRun cfg tr = some cfg' → SInv cfg'
  | [], cfg, cfg', hinv, h => by cases h; exact hinv
  | l :: ls, cfg, cfg', hinv, h => by
    unfold serveRun at h
    cases hstep : serveStepB cfg l with
    | none => rw [hstep] at h; exact absurd h (by simp)
    | some c1 =>
      rw [hstep] at h
      exact serveRun_inv ls c1 cfg' (sinv_step cfg c1 l hinv hstep) h


/-- A step either preserves the recorded fatal error or is the
`acceptFatal` event that introduced it. -/
theorem serveStepB_err (cfg cfg' : SConfig) (l : SLabel) (e : Err)
    (h : serveStepB cfg l = some cfg') (he : phaseErr cfg'.phase = some e) :
    phaseErr cfg.phase = some e ∨ l = .acceptFatal e := by
  cases l with
  | acceptConn =>
    simp only [serveStepB] at h
    split at h
    next hp => cases h; exact Or.inl he
    next => exact absurd h (by simp)
  | acceptFatal f =>
    simp only [serveStepB] at h
    split at h
    next hp =>
      cases h
      simp only [phaseErr] at he
      cases he
      exact Or.inr rfl
    next => exact absurd h (by simp)
  | handlerDone =>
    simp only [serveStepB] at h
    by_cases hz : cfg.inFlight = 0
    · rw [if_pos hz] at h; exact absurd h (by simp)
    · rw [if_neg hz] at h
      split at h
      next hp => cases h; exact Or.inl he
      next hp => cases h; exact Or.inl he
      next hp => cases h; exact Or.inl he
      next => exact absurd h (by simp)
  | runCancel =>
    simp only [serveStepB] at h
    split at h
    next hp => cases h; simp only [phaseErr] at he; exact Or.inl (by simp [hp, phaseErr, he])
    next => exact absurd h (by simp)
  | runWaitDone =>
    simp only [serveStepB] at h
    split at h
    next hp =>
      by_cases hz : cfg.inFlight = 0
      · rw [if_pos hz] at h
        cases h
        simp only [phaseErr] at he
        exact Or.inl (by simp [hp, phaseErr, he])
      · rw [if_neg hz] at h; exact absurd h (by simp)
    next => exact absurd h (by simp)
  | runClose =>
    simp only [serveStepB] at h
    split at h
    next hp => cases h; simp only [phaseErr] at he; exact Or.inl (by simp [hp, phaseErr, he])
    next => exact absurd h (by simp)

/-- The fatal error recorded at the end of a run was either already present
or introduced by an `acceptFatal` event of the trace. -/
theorem serveRun_err_origin : ∀ (tr : List SLabel) (cfg cfg' : SConfig) (e : Err),
    serveRun cfg tr = some cfg' → phaseErr cfg'.phase = some e →
    phaseErr cfg.phase = some e ∨ SLabel.acceptFatal e ∈ tr
  | [], cfg, cfg', e, h, he => by cases h; exact Or.inl he
  | l :: ls, cfg, cfg', e, h, he => by
    unfold serveRun at h
    cases hstep : serveStepB cfg l with
    | none => rw [hstep] at h; exact absurd h (by simp)
    | some c1 =>
      rw [hstep] at h
      rcases serveRun_err_origin ls c1 cfg' e h he with h1 | h2
      · rcases serveStepB_err cfg c1 l e hstep h1 with h3 | h4
        · exact Or.inl h3
        · exact Or.inr (h4 ▸ List.mem_cons_self l ls)
      · exact Or.inr (List.mem_cons_of_mem l h2)

/-- Claim C2: in every run of `Server.Serve`'s transition system that ends
with `Serve` returned, the returned error was produced by a fatal accept
event of the trace, and at the moment of return the shutdown context has
been cancelled, the listener has been closed, and the in-flight counter has
reached zero — every previously dispatched connection-handling task
completed before the fatal error was returned. -/
theorem claim2_serve_drains_before_return (tr : List SLabel) (cfg : SConfig) (e : Err)
    (hrun : serveRun serveInit tr = some cfg) (hret : cfg.phase = .returned e) :
    cfg.inFlight = 0 ∧ cfg.cancelled = true ∧ cfg.listenerClosed = true ∧
      SLabel.acceptFatal e ∈ tr := by
  have hinv := serveRun_inv tr serveInit cfg (by simp [SInv, serveInit]) hrun
  unfold SInv at hinv
  rw [hret] at hinv
  have horig := serveRun_err_origin tr serveInit cfg e hrun (by rw [hret]; rfl)
  rcases horig with h1 | h2
  · exact absurd h1 (by simp [serveInit, phaseErr])
  · exact ⟨hinv.1, hinv.2.1, hinv.2.2, h2⟩



/-- Witness for `claim2_serve_drains_before_return` on a concrete trace. -/
theorem claim2_serve_drains_before_return_witness :
    claim2Final.inFlight = 0 ∧ claim2Final.cancelled = true ∧
      claim2Final.listenerClosed = true ∧
      SLabel.acceptFatal (.sys (str "use of closed network connection")) ∈ claim2Trace :=
  claim2_serve_drains_before_return claim2Trace claim2Final
    (.sys (str "use of closed network connection")) (by decide) (by decide)

/-- Claim C3: for every dispatched connection, whatever the handler's
outcome, the dispatcher closes the connection and decrements the in-flight
counter, no panic escapes the goroutine; a panic is captured and logged
together with a stack trace and the remote peer's address; and in the
server transition system a handler completing (panicking or not) while the
server is accepting leaves it accepting, with a further `acceptConn` step
still enabled — one connection's failure neither terminates the server nor
prevents subsequent connections from being accepted and dispatched. -/
theorem claim3_panic_contained :
    (∀ (addr : Str) (oc : HandlerOutcome),
        (serverServe addr oc).connClosed = true ∧
        (serverServe addr oc).joinDone = true ∧
        (serverServe addr oc).escaped = none) ∧
    (∀ (addr v : Str),
        (serverServe addr (.panics v)).panicLogged = some ⟨v, addr, true⟩) ∧
    (∀ cfg cfg' : SConfig, cfg.phase = .accepting →
        serveStepB cfg .handlerDone = some cfg' →
        cfg'.phase = .accepting ∧
          serveStepB cfg' .acceptConn = some { cfg' with inFlight := cfg'.inFlight + 1 }) := by
  refine ⟨?_, ?_, ?_⟩
  · intro addr oc
    cases oc <;> exact ⟨rfl, rfl, rfl⟩
  · intro addr v
    rfl
  · intro cfg cfg' hp h
    simp only [serveStepB] at h
    by_cases hz : cfg.inFlight = 0
    · rw [if_pos hz] at h; exact absurd h (by simp)
    · rw [if_neg hz] at h
      rw [hp] at h
      cases h
      exact ⟨rfl, rfl⟩

/-- Witness for `claim3_panic_contained` at a concrete panicking handler
and a concrete server configuration. -/
theorem claim3_panic_contained_witness :
    (serverServe (str "10.1.2.3:4567") (.panics (str "boom"))).connClosed = true ∧
    (serverServe (str "10.1.2.3:4567") (.panics (str "boom"))).escaped = none ∧
    (serverServe (str "10.1.2.3:4567") (.panics (str "boom"))).panicLogged
      = some ⟨str "boom", str "10.1.2.3:4567", true⟩ ∧
    serveStepB { phase := .accepting, inFlight := 1, cancelled := false,
                 listenerClosed := false } .handlerDone
      = some { phase := .accepting, inFlight := 0, cancelled := false,
               listenerClosed := false } :=
  ⟨(claim3_panic_contained.1 (str "10.1.2.3:4567") (.panics (str "boom"))).1,
   (claim3_panic_contained.1 (str "10.1.2.3:4567") (.panics (str "boom"))).2.2,
   claim3_panic_contained.2.1 (str "10.1.2.3:4567") (str "boom"),
   by decide⟩

/-- The backoff sequence agrees with stepping the loop: consecutive
transient failures report and sleep the successive backoffs. -/
theorem acceptLoopRun_transient_run (fl ce : Nat) :
    ∀ (es : List Str) (i : Nat) (rest : List AcceptAttempt),
      acceptLoopRun fl ce (backoffSeq fl ce i) (es.map .transient ++ rest)
        = (expectedFailEvs fl ce es i ++
            (acceptLoopRun fl ce (backoffSeq fl ce (es.length + i)) rest).1,
           (acceptLoopRun fl ce (backoffSeq fl ce (es.length + i)) rest).2)
  | [], i, rest => by simp [expectedFailEvs]
  | e :: es, i, rest => by
    have ih := acceptLoopRun_transient_run fl ce es (i + 1) rest
    simp only [List.map_cons, List.cons_append, acceptLoopRun, expectedFailEvs, List.append_eq]
    rw [show min (backoffSeq fl ce i * 2) ce = backoffSeq fl ce (i + 1) from rfl]
    rw [ih]
    rw [show (e :: es).length + i = es.length + (i + 1) from by
      simp only [List.length_cons]; omega]

/-- Claim C4: for every sequence of accept attempts failing transiently
`k` times then succeeding, the loop reports each failure to the diagnostic
callback with the current backoff and sleeps exactly that backoff
(`expectedFailEvs`), the backoffs start at the floor and double bounded by
the ceiling (`backoffSeq`), never exceed the ceiling, and the successful
accept follows the last sleep immediately — no further delay — with the
backoff reset to the floor for the remainder of the run. -/
theorem claim4_backoff_policy (es : List Str) (c : Nat) (rest : List AcceptAttempt) :
    (acceptLoopRun acceptBackoffFloor acceptBackoffCeiling acceptBackoffFloor
        (es.map .transient ++ .success c :: rest)).1
      = expectedFailEvs acceptBackoffFloor acceptBackoffCeiling es 0 ++
          .accepted c ::
            (acceptLoopRun acceptBackoffFloor acceptBackoffCeiling acceptBackoffFloor rest).1 ∧
    backoffSeq acceptBackoffFloor acceptBackoffCeiling 0 = acceptBackoffFloor ∧
    (∀ i, backoffSeq acceptBackoffFloor acceptBackoffCeiling (i + 1)
        = min (backoffSeq acceptBackoffFloor acceptBackoffCeiling i * 2) acceptBackoffCeiling) ∧
    (∀ i, backoffSeq acceptBackoffFloor acceptBackoffCeiling i ≤ acceptBackoffCeiling) := by
  refine ⟨?_, rfl, fun i => rfl, ?_⟩
  · have h := acceptLoopRun_transient_run acceptBackoffFloor acceptBackoffCeiling es 0
      (.success c :: rest)
    rw [show backoffSeq acceptBackoffFloor acceptBackoffCeiling 0 = acceptBackoffFloor from rfl]
      at h
    rw [h]
    simp [acceptLoopRun]
  · intro i
    cases i with
    | zero => decide
    | succ n => exact Nat.min_le_right _ _

/-- What a successful `strIndexAux` search means: the pattern occurs at the
returned offset and nowhere earlier in the searched suffix. -/
theorem strIndexAux_eq_some : ∀ (pat s : Str) (i j : Nat),
    strIndexAux pat s i = some j →
    ∃ d, j = i + d ∧ pat.isPrefixOf (s.drop d) = true ∧
      ∀ k, k < d → pat.isPrefixOf (s.drop k) = false
  | pat, [], i, j, h => by
    unfold strIndexAux at h
    split at h
    next hp =>
      cases h
      exact ⟨0, by omega, by simpa using hp, fun k hk => absurd hk (Nat.not_lt_zero k)⟩
    next => exact absurd h (by simp)
  | pat, c :: rest, i, j, h => by
    unfold strIndexAux at h
    split at h
    next hp =>
      cases h
      exact ⟨0, by omega, by simpa using hp, fun k hk => absurd hk (Nat.not_lt_zero k)⟩
    next hp =>
      obtain ⟨d, hd, hpre, hmin⟩ := strIndexAux_eq_some pat rest (i + 1) j h
      refine ⟨d + 1, by omega, by simpa using hpre, ?_⟩
      intro k hk
      cases k with
      | zero =>
        rw [List.drop_zero]
        exact (Bool.not_eq_true _) ▸ hp
      | succ k' => simpa using hmin k' (by omega)

/-- A failed `strIndexAux` search means the pattern occurs nowhere in the
searched suffix. -/
theorem strIndexAux_eq_none : ∀ (pat s : Str) (i : Nat),
    strIndexAux pat s i = none → ∀ k, pat.isPrefixOf (s.drop k) = false
  | pat, [], i, h, k => by
    unfold strIndexAux at h
    split at h
    next => exact absurd h (by simp)
    next hp =>
      rw [List.drop_nil]
      exact (Bool.not_eq_true _) ▸ hp
  | pat, c :: rest, i, h, k => by
    unfold strIndexAux at h
    split at h
    next => exact absurd h (by simp)
    next hp =>
      cases k with
      | zero =>
        rw [List.drop_zero]
        exact (Bool.not_eq_true _) ▸ hp
      | succ k' => simpa using strIndexAux_eq_none pat rest (i + 1) h k'

/-- `"://"` cannot begin strictly inside `p` in `p ++ "://" ++ t` when it
occurs nowhere in `p` itself: the only occurrence reachable from an offset
below `p.length` would have to straddle the boundary, and no proper suffix
of `"://"` is one of its prefixes. -/
theorem schemeSep_no_straddle (p t : Str)
    (hp : ∀ k, schemeSep.isPrefixOf (p.drop k) = false)
    (j : Nat) (hj : j < p.length) :
    schemeSep.isPrefixOf ((p ++ (schemeSep ++ t)).drop j) = false := by
  have hdrop : (p ++ (schemeSep ++ t)).drop j = p.drop j ++ (schemeSep ++ t) := by
    rw [List.drop_append_eq_append_drop, Nat.sub_eq_zero_of_le (Nat.le_of_lt hj),
      List.drop_zero]
  rw [hdrop]
  by_contra hcon
  rw [Bool.not_eq_false] at hcon
  have hpre : schemeSep <+: p.drop j ++ (schemeSep ++ t) :=
    List.isPrefixOf_iff_prefix.mp hcon
  have hne : p.drop j ≠ [] := by
    intro h0
    have := List.drop_eq_nil_iff.mp h0
    omega
  have hsep : schemeSep = ':' :: '/' :: '/' :: [] := rfl
  cases hq : p.drop j with
  | nil => exact hne hq
  | cons x q1 =>
    rw [hq, hsep] at hpre
    cases q1 with
    | nil =>
      simp only [List.cons_append, List.nil_append] at hpre
      rw [List.cons_prefix_cons] at hpre
      rw [List.cons_prefix_cons] at hpre
      exact absurd hpre.2.1 (by decide)
    | cons y q2 =>
      cases q2 with
      | nil =>
        simp only [List.cons_append, List.nil_append] at hpre
        rw [List.cons_prefix_cons] at hpre
        rw [List.cons_prefix_cons] at hpre
        rw [List.cons_prefix_cons] at hpre
        exact absurd hpre.2.2.1 (by decide)
      | cons z q3 =>
        simp only [List.cons_append] at hpre
        rw [List.cons_prefix_cons] at hpre
        rw [List.cons_prefix_cons] at hpre
        rw [List.cons_prefix_cons] at hpre
        obtain ⟨h1, h2, h3, _⟩ := hpre
        have hin : schemeSep.isPrefixOf (p.drop j) = true := by
          rw [hq, hsep, ← h1, ← h2, ← h3]
          simp [List.isPrefixOf]
        rw [hp j] at hin
        exact absurd hin (by simp)

/-- Claim C5: for every input address carrying an explicit scheme prefix
`"<scheme>://"` whose scheme (the text before the first `"://"`) is not in
the caller-supplied allow-list, resolution fails with the
unsupported-protocol error naming that scheme and produces no targets.
The allow-list is assumed not to contain `"://"` inside its protocol names,
as at both call sites. -/
theorem claim5_unsupported_scheme (env : NetEnv) (address dN dU : Str)
    (ps : List Str) (off : Nat)
    (hoff : strIndex address schemeSep = some off)
    (hscheme : address.take off ∉ ps)
    (hps : ∀ p ∈ ps, strIndex p schemeSep = none) :
    resolveListen env address dN dU ps
        = .error (.unsupportedProtocol (address.take off)) ∧
    ∀ nw addrs, resolveListen env address dN dU ps ≠ .ok (nw, addrs) := by
  obtain ⟨d, hd, hpre0, hmin⟩ := strIndexAux_eq_some schemeSep address 0 off hoff
  have hd' : d = off := by omega
  subst hd'
  have hm : matchScheme ps address = none := by
    cases hm : matchScheme ps address with
    | none => rfl
    | some pr =>
      obtain ⟨p, r⟩ := pr
      obtain ⟨hmem, hppre, hr⟩ := matchScheme_eq_some ps address p r hm
      obtain ⟨t, ht⟩ := List.isPrefixOf_iff_prefix.mp hppre
      have hocc : schemeSep.isPrefixOf (address.drop p.length) = true := by
        rw [← ht, List.append_assoc, List.drop_append_eq_append_drop,
          List.drop_length, Nat.sub_self, List.drop_zero, List.nil_append]
        exact List.isPrefixOf_iff_prefix.mpr (List.prefix_append schemeSep t)
      have hnos : ∀ j, j < p.length → schemeSep.isPrefixOf (address.drop j) = false := by
        intro j hj
        rw [← ht, List.append_assoc]
        exact schemeSep_no_straddle p t
          (strIndexAux_eq_none schemeSep p 0 (hps p hmem)) j hj
      have hoffp : d = p.length := by
        rcases Nat.lt_trichotomy d p.length with h1 | h1 | h1
        · rw [hnos d h1] at hpre0
          exact absurd hpre0 (by simp)
        · exact h1
        · rw [hmin p.length h1] at hocc
          exact absurd hocc (by simp)
      have htake : address.take d = p := by
        rw [hoffp, ← ht, List.append_assoc]
        exact List.take_left p (schemeSep ++ t)
      exact absurd (htake ▸ hmem) hscheme
  have hsp : schemePhase ps address = .error (.unsupportedProtocol (address.take d)) := by
    unfold schemePhase
    rw [hoff, hm]
  constructor
  · unfold resolveListen
    rw [hsp]
  · intro nw addrs hcontra
    unfold resolveListen at hcontra
    rw [hsp] at hcontra
    exact absurd hcontra (by simp)

/-- Witness for `claim5_unsupported_scheme`: the spec's own example
`"xyz://host:1"` against `Listen`'s allow-list. -/
theorem claim5_unsupported_scheme_witness :
    resolveListen emptyEnv (str "xyz://host:1") (str "tcp") (str "unix") listenProtocols
        = .error (.unsupportedProtocol (str "xyz")) ∧
    ∀ nw addrs, resolveListen emptyEnv (str "xyz://host:1") (str "tcp") (str "unix")
        listenProtocols ≠ .ok (nw, addrs) := by
  have h := claim5_unsupported_scheme emptyEnv (str "xyz://host:1") (str "tcp")
    (str "unix") listenProtocols 3 (by decide) (by decide) (by decide)
  refine ⟨?_, h.2⟩
  rw [h.1]
  decide

end Netx
